import Mathlib

/-!
Shallow embedding of the chaincode in `src/testcc.go` (package `main`).

Modelling choices:
* The ledger (Fabric state database) is an association list from keys to
  stored records; `PutState` replaces any existing binding of the key and is
  additionally recorded in a write log, so that theorems can speak about
  which keys an invocation rewrote.
* The stored bytes of a key are always the `json.Marshal` of a `participant`
  record (the only thing this chaincode ever writes), so a byte slice is
  modelled as a `participant` value and a possibly-nil byte slice as an
  `Option participant`; `json.Unmarshal` of a nil slice fails with Go's
  "unexpected end of JSON input" error, and succeeds on marshalled records.
* `shim.ChaincodeStubInterface.GetState` is modelled as a non-failing read
  (the storage-error branches of the Go code are environment failures of the
  external store and are dead in this deterministic model).
* Go `int` is a 64-bit two's-complement integer whose arithmetic wraps on
  overflow. Balances are carried as `Int`, and every arithmetic step of
  `transferPoints` (`pointsAsInt * 2`, the subtraction producing
  `pointsAfterTax`, and each balance credit/debit) is wrapped into
  `[-2^63, 2^63)` by `goInt`, the explicit `% 2^64` reduction; Go's integer
  division truncates toward zero, which is `Int.tdiv` in Lean (its operand
  here is already wrapped, and division by 100 cannot overflow). Every
  balance the program ever stores is in the 64-bit range (`goAtoi` clamps
  and `goInt` wraps) — `reachable_balances_inRange` below proves this
  invariant for all reachable states.
* `strconv.Atoi` is modelled with its full contract: optional sign followed
  by decimal digits, value clamped to the signed 64-bit range, returned
  value 0 on a syntax error and the clamped extreme on a range error, with a
  Boolean flag standing for `err == nil`.
* `strings.ToLower` is modelled on the ASCII fragment: uppercase ASCII
  letters are mapped to lowercase, all other characters are kept (Go also
  lowercases non-ASCII letters, but no Unicode case mapping ever produces an
  uppercase ASCII letter, which is the only property used here).
-/

/-- Participant record stored in the ledger (`participant` struct of
`testcc.go`, with its json field tags `docType`, `name`, `category`,
`balance`). `Balance` is a Go `int` (64-bit, wrapping); it is carried here
as an `Int` on which all program arithmetic is performed modulo `2^64` via
`goInt`, so every balance the program stores lies in `[-2^63, 2^63)` (see
`reachable_balances_inRange`). -/
structure participant where
  ObjectType : String
  Name : String
  Category : String
  Balance : Int
deriving Repr, DecidableEq

/-- A chaincode response: `shim.Success` with an optional payload (the
marshalled record, for `readParty`) or `shim.Error` with a message. -/
inductive Response where
  | success : Option participant → Response
  | error : String → Response
deriving Repr, DecidableEq

/-- Look a key up in the ledger association list (first binding wins). -/
def getLedger : List (String × participant) → String → Option participant
  | [], _ => none
  | kv :: rest, key => if kv.1 = key then some kv.2 else getLedger rest key

/-- Remove every binding of a key from the ledger association list. -/
def removeKey : List (String × participant) → String → List (String × participant)
  | [], _ => []
  | kv :: rest, key => if kv.1 = key then removeKey rest key else kv :: removeKey rest key

/-- Store a record under a key, replacing any existing binding. -/
def putL (l : List (String × participant)) (key : String) (v : participant) :
    List (String × participant) :=
  (key, v) :: removeKey l key

/-- The chaincode-visible state: the ledger contents plus the log of all
`PutState` calls made so far (oldest first). -/
structure ChainState where
  ledger : List (String × participant)
  writes : List (String × participant)
deriving Repr, DecidableEq

/-- The empty state database. -/
def initialState : ChainState := ⟨[], []⟩

/-- `stub.GetState key`: read the ledger; `none` models a nil byte slice. -/
def getState (st : ChainState) (key : String) : Option participant :=
  getLedger st.ledger key

/-- `stub.PutState key v`: update the ledger and append to the write log. -/
def putState (st : ChainState) (key : String) (v : participant) : ChainState :=
  ⟨putL st.ledger key v, st.writes ++ [(key, v)]⟩

/-- `json.Unmarshal` of a (possibly nil) byte slice holding a marshalled
participant: a nil slice yields Go's decode error, otherwise the record. -/
def jsonUnmarshal : Option participant → Except String participant
  | none => Except.error "unexpected end of JSON input"
  | some p => Except.ok p

/-- Split an optional leading sign off a character list
(`strconv.ParseInt` sign handling). -/
def signSplit : List Char → Bool × List Char
  | '+' :: rest => (false, rest)
  | '-' :: rest => (true, rest)
  | l => (false, l)

/-- Whether a string is a syntactically valid decimal integer for
`strconv.Atoi`: an optional sign followed by at least one ASCII digit. -/
def goAtoiSyntaxOk (s : String) : Bool :=
  let digs := (signSplit s.data).2
  !digs.isEmpty && digs.all Char.isDigit

/-- Largest Go `int` (64-bit). -/
def maxGoInt : Int := 2 ^ 63 - 1

/-- Smallest Go `int` (64-bit). -/
def minGoInt : Int := -(2 ^ 63)

/-- Two's-complement wrap into the signed 64-bit range: the result of a Go
`int` arithmetic operation whose exact value is `x`. -/
def goInt (x : Int) : Int := (x + 2 ^ 63) % 2 ^ 64 - 2 ^ 63

/-- `x` is representable as a Go `int` (64-bit signed). -/
def inGoRange (x : Int) : Prop := minGoInt ≤ x ∧ x ≤ maxGoInt

instance (x : Int) : Decidable (inGoRange x) :=
  inferInstanceAs (Decidable (minGoInt ≤ x ∧ x ≤ maxGoInt))

/-- `strconv.Atoi`: the returned value together with a flag standing for
`err == nil`. On a syntax error the returned value is 0; on a range
overflow it is the clamped extreme of the 64-bit range (Go's `ErrRange`
contract). -/
def goAtoi (s : String) : Int × Bool :=
  if goAtoiSyntaxOk s then
    let (neg, digs) := signSplit s.data
    let n : Nat := digs.foldl (fun a c => a * 10 + (c.toNat - 48)) 0
    let v : Int := if neg then -(n : Int) else (n : Int)
    if v > maxGoInt then (maxGoInt, false)
    else if v < minGoInt then (minGoInt, false)
    else (v, true)
  else (0, false)

/-- ASCII case mapping of `strings.ToLower`: uppercase ASCII letters become
lowercase, everything else is unchanged. -/
def goToLowerChar (c : Char) : Char :=
  if 65 ≤ c.toNat ∧ c.toNat ≤ 90 then Char.ofNat (c.toNat + 32) else c

/-- `strings.ToLower` on the ASCII fragment (see the header comment). -/
def goToLower (s : String) : String :=
  String.mk (s.data.map goToLowerChar)

/-- `initParty` of `testcc.go`: create a new participant. Returns the
response and the state after the call. -/
def initParty (st : ChainState) (args : List String) : Response × ChainState :=
  match args with
  | [a0, a1, a2] =>
    if a0.length = 0 then (.error "1st argument must be a non-empty string", st)
    else if a1.length = 0 then (.error "2nd argument must be a non-empty string", st)
    else if a2.length = 0 then (.error "3rd argument must be a non-empty string", st)
    else
      let partyName := a0
      let category := goToLower a1
      let (balance, ok) := goAtoi a2
      if !ok then (.error "3rd argument must be a numeric string", st)
      else
        match getState st partyName with
        | some _ => (.error ("This Participant already exists: " ++ partyName), st)
        | none =>
          let p : participant := ⟨"participant", partyName, category, balance⟩
          (.success none, putState st partyName p)
  | _ => (.error "Incorrect number of arguments. Expecting 3 (Name, Type, Balance)", st)

/-- `readParty` of `testcc.go`: read a participant; the success payload is
the stored (marshalled) record. -/
def readParty (st : ChainState) (args : List String) : Response × ChainState :=
  match args with
  | [name] =>
    match getState st name with
    | none =>
      (.error ("\x7b\"Error\":\"particpant does not exist: " ++ name ++ "\"\x7d"), st)
    | some v => (.success (some v), st)
  | _ => (.error "Incorrect number of arguments. Expecting name of the Participant to query", st)

/-- The rejection message of `transferPoints` for a tax-authority party
(the Go source's literal string, spelling included). -/
def taxRejectMsg : String := "Tax Authority cann't Participate in any transaction"

/-- `transferPoints` of `testcc.go`, translated control-flow point by
control-flow point. Note the three existence checks of the Go source all
test `senderAsBytes` (lines 174, 182, 190 of `testcc.go`), so the second
and third `if` below are the source's literal — dead — receiver and
tax-authority checks; the parse error of `strconv.Atoi` is ignored exactly
as in the source. -/
def transferPoints (st : ChainState) (args : List String) : Response × ChainState :=
  match args with
  | sender :: receiver :: points :: _ =>
    let taxAuth := "TaxAuth"
    let pointsAsInt := (goAtoi points).1
    let senderAsBytes := getState st sender
    if senderAsBytes = none then (.error "Sender does not exist", st)
    else
      let receiverAsBytes := getState st receiver
      if senderAsBytes = none then (.error "Receiver does not exist", st)
      else
        let taxAuthAsBytes := getState st taxAuth
        if senderAsBytes = none then (.error "Tax Authority does not exist", st)
        else
          match jsonUnmarshal taxAuthAsBytes with
          | .error e => (.error e, st)
          | .ok taxAuthority =>
            match jsonUnmarshal senderAsBytes with
            | .error e => (.error e, st)
            | .ok senderTransfer =>
              match jsonUnmarshal receiverAsBytes with
              | .error e => (.error e, st)
              | .ok receiverTranfer =>
                if senderTransfer.Category = "TaxAuth" then (.error taxRejectMsg, st)
                else if receiverTranfer.Category = "TaxAuth" then (.error taxRejectMsg, st)
                else if senderTransfer.Balance < pointsAsInt then
                  (.error "There is no enough balance in the sender account", st)
                else
                  let senderTransfer' :=
                    { senderTransfer with
                        Balance := goInt (senderTransfer.Balance - pointsAsInt) }
                  if receiverTranfer.Category = "TaxExempt" then
                    let receiverTranfer' :=
                      { receiverTranfer with
                          Balance := goInt (receiverTranfer.Balance + pointsAsInt) }
                    let st1 := putState st sender senderTransfer'
                    let st2 := putState st1 receiver receiverTranfer'
                    (.success none, st2)
                  else
                    let taxPoints := Int.tdiv (goInt (pointsAsInt * 2)) 100
                    let pointsAfterTax := goInt (pointsAsInt - taxPoints)
                    let receiverTranfer' :=
                      { receiverTranfer with
                          Balance := goInt (receiverTranfer.Balance + pointsAfterTax) }
                    let taxAuthority' :=
                      { taxAuthority with
                          Balance := goInt (taxAuthority.Balance + taxPoints) }
                    let st1 := putState st taxAuth taxAuthority'
                    let st2 := putState st1 sender senderTransfer'
                    let st3 := putState st2 receiver receiverTranfer'
                    (.success none, st3)
  | _ => (.error "Incorrect number of arguments. Expecting 3", st)

/-- States reachable from the empty state database through the two mutating
operations of the chaincode. -/
inductive Reachable : ChainState → Prop where
  | empty : Reachable initialState
  | stepInit (st : ChainState) (args : List String) :
      Reachable st → Reachable (initParty st args).2
  | stepTransfer (st : ChainState) (args : List String) :
      Reachable st → Reachable (transferPoints st args).2

/-- A string with no uppercase ASCII letter (the image of `goToLower`). -/
def lowerOnly (s : String) : Bool :=
  s.data.all (fun c => !(65 ≤ c.toNat && c.toNat ≤ 90))

/-- Sum of all balances stored in a ledger. -/
def totalBalance : List (String × participant) → Int
  | [] => 0
  | kv :: rest => kv.2.Balance + totalBalance rest

/-- A ledger whose keys are pairwise distinct (every reachable ledger is
of this shape, since `putL` removes the key it rebinds). -/
def nodupKeys : List (String × participant) → Bool
  | [] => true
  | kv :: rest => (getLedger rest kv.1).isNone && nodupKeys rest

/-- Balance stored under a key (0 when the key is absent). -/
def balAt (l : List (String × participant)) (key : String) : Int :=
  match getLedger l key with
  | some p => p.Balance
  | none => 0

/-- Invariant of the chaincode: every stored category has been normalised
by `strings.ToLower`, hence holds no uppercase ASCII letter. -/
def catInv (st : ChainState) : Prop :=
  ∀ k p, getLedger st.ledger k = some p → lowerOnly p.Category = true

/-- Invariant of the chaincode: every stored balance is representable as a
Go `int` (`goAtoi` clamps at creation, `goInt` wraps every transfer
update). -/
def balInv (st : ChainState) : Prop :=
  ∀ k p, getLedger st.ledger k = some p → inGoRange p.Balance

/-- Concrete fixture: a normal participant with balance 500. -/
def wAlice : participant := ⟨"participant", "Alice", "normal", 500⟩

/-- Concrete fixture: a normal participant with balance 0. -/
def wBob : participant := ⟨"participant", "Bob", "normal", 0⟩

/-- Concrete fixture: the tax-authority record under the reserved key. -/
def wTax : participant := ⟨"participant", "TaxAuth", "taxauth", 0⟩

/-- Concrete fixture: a record whose stored category is the literal marker
`"TaxExempt"` (a state `initParty` itself never produces). -/
def wCarolX : participant := ⟨"participant", "Carol", "TaxExempt", 0⟩

/-- Concrete fixture state: Alice, Bob and the tax authority. -/
def wBase : ChainState := ⟨[("Alice", wAlice), ("Bob", wBob), ("TaxAuth", wTax)], []⟩

/-- Concrete fixture state: Alice, the literal-marker Carol and the tax
authority. -/
def wExempt : ChainState := ⟨[("Alice", wAlice), ("Carol", wCarolX), ("TaxAuth", wTax)], []⟩

/-- Concrete fixture state with no receiver record. -/
def wNoBob : ChainState := ⟨[("Alice", wAlice), ("TaxAuth", wTax)], []⟩

/-- Concrete fixture state with no tax-authority record. -/
def wNoTax : ChainState := ⟨[("Alice", wAlice), ("Bob", wBob)], []⟩

/-- Concrete reachable state: the empty database after one `initParty`. -/
def wReach : ChainState := (initParty initialState ["Alice", "Normal", "500"]).2

/-- Concrete fixture state: Alice holding 5·10^18 points (representable as
a Go `int` and creatable through `initParty`), Bob and the tax authority —
used to exhibit the int64 wrap of `pointsAsInt * 2`. -/
def wRich : ChainState :=
  ⟨[("Alice", ⟨"participant", "Alice", "normal", 5000000000000000000⟩),
    ("Bob", wBob), ("TaxAuth", wTax)], []⟩

theorem getLedger_removeKey_self (l : List (String × participant)) (key : String) :
    getLedger (removeKey l key) key = none := by
  induction l with
  | nil => rfl
  | cons kv rest ih =>
    by_cases h : kv.1 = key
    · simpa [removeKey, h] using ih
    · simpa [removeKey, getLedger, h] using ih

theorem getLedger_removeKey_ne (l : List (String × participant)) {key k : String}
    (h : k ≠ key) : getLedger (removeKey l key) k = getLedger l k := by
  induction l with
  | nil => rfl
  | cons kv rest ih =>
    simp only [removeKey, getLedger]
    by_cases hk : kv.1 = key
    · rw [if_pos hk, ih]
      have hne : kv.1 ≠ k := by rw [hk]; exact fun hx => h hx.symm
      rw [if_neg hne]
    · rw [if_neg hk]
      simp only [getLedger]
      by_cases hkk : kv.1 = k
      · rw [if_pos hkk, if_pos hkk]
      · rw [if_neg hkk, if_neg hkk, ih]

theorem getLedger_putL_self (l : List (String × participant)) (key : String)
    (v : participant) : getLedger (putL l key v) key = some v := by
  simp [putL, getLedger]

theorem getLedger_putL_ne (l : List (String × participant)) {key k : String}
    (v : participant) (h : k ≠ key) : getLedger (putL l key v) k = getLedger l k := by
  have : key ≠ k := fun hx => h hx.symm
  simp [putL, getLedger, this, getLedger_removeKey_ne l h]

theorem nodupKeys_removeKey {l : List (String × participant)} (key : String)
    (h : nodupKeys l = true) : nodupKeys (removeKey l key) = true := by
  induction l with
  | nil => rfl
  | cons kv rest ih =>
    simp only [nodupKeys, Bool.and_eq_true] at h
    by_cases hk : kv.1 = key
    · simpa [removeKey, hk] using ih h.2
    · have hrk : getLedger (removeKey rest key) kv.1 = getLedger rest kv.1 :=
        getLedger_removeKey_ne rest hk
      simp [removeKey, nodupKeys, hk, hrk, h.1, ih h.2]

theorem nodupKeys_putL {l : List (String × participant)} (key : String) (v : participant)
    (h : nodupKeys l = true) : nodupKeys (putL l key v) = true := by
  simp [putL, nodupKeys, getLedger_removeKey_self, nodupKeys_removeKey key h]

theorem totalBalance_removeKey {l : List (String × participant)} (key : String)
    (h : nodupKeys l = true) :
    totalBalance (removeKey l key) = totalBalance l - balAt l key := by
  induction l with
  | nil => simp [removeKey, totalBalance, balAt, getLedger]
  | cons kv rest ih =>
    simp only [nodupKeys, Bool.and_eq_true] at h
    by_cases hk : kv.1 = key
    · have habs : getLedger rest key = none := by
        have := h.1
        rw [hk] at this
        cases hx : getLedger rest key with
        | none => rfl
        | some q => rw [hx] at this; simp at this
      have hrm : removeKey rest key = rest := by
        clear ih h
        induction rest with
        | nil => rfl
        | cons kv2 rest2 ih2 =>
          simp only [getLedger] at habs
          by_cases h2 : kv2.1 = key
          · rw [h2] at habs; simp at habs
          · simp only [getLedger, if_neg h2] at habs
            simp [removeKey, h2, ih2 habs]
      simp [removeKey, hk, hrm, balAt, getLedger, totalBalance]
    · have : balAt (kv :: rest) key = balAt rest key := by
        simp [balAt, getLedger, hk]
      simp only [removeKey, if_neg hk, totalBalance, this, ih h.2]
      ring

theorem totalBalance_putL {l : List (String × participant)} (key : String) (v : participant)
    (h : nodupKeys l = true) :
    totalBalance (putL l key v) = totalBalance l - balAt l key + v.Balance := by
  simp only [putL, totalBalance, totalBalance_removeKey key h]
  ring

theorem balAt_putL_self (l : List (String × participant)) (key : String) (v : participant) :
    balAt (putL l key v) key = v.Balance := by
  simp [balAt, getLedger_putL_self]

theorem balAt_putL_ne (l : List (String × participant)) {key k : String} (v : participant)
    (h : k ≠ key) : balAt (putL l key v) k = balAt l k := by
  simp [balAt, getLedger_putL_ne l v h]

theorem toNat_goToLowerChar (c : Char) (h : 65 ≤ c.toNat ∧ c.toNat ≤ 90) :
    (goToLowerChar c).toNat = c.toNat + 32 := by
  have hv : (c.toNat + 32).isValidChar := Or.inl (by omega)
  simp only [goToLowerChar, if_pos h, Char.ofNat, dif_pos hv]
  rfl

theorem goToLowerChar_not_upper (c : Char) :
    65 ≤ (goToLowerChar c).toNat ∧ (goToLowerChar c).toNat ≤ 90 → False := by
  by_cases h : 65 ≤ c.toNat ∧ c.toNat ≤ 90
  · rw [toNat_goToLowerChar c h]; omega
  · rw [goToLowerChar, if_neg h]; exact h

theorem lowerOnly_goToLower (s : String) : lowerOnly (goToLower s) = true := by
  simp only [lowerOnly, goToLower, List.all_map, List.all_eq_true]
  intro c _
  have h := goToLowerChar_not_upper c
  simp only [Function.comp, Bool.not_eq_true', Bool.and_eq_false_iff,
    decide_eq_false_iff_not]
  tauto

theorem ne_marker_of_lowerOnly {s : String} (h : lowerOnly s = true) :
    s ≠ "TaxAuth" ∧ s ≠ "TaxExempt" := by
  constructor <;> rintro rfl <;> exact absurd h (by decide)

theorem map_goToLowerChar_eq_self {l : List Char}
    (h : ∀ c ∈ l, ¬(65 ≤ c.toNat ∧ c.toNat ≤ 90)) : l.map goToLowerChar = l := by
  induction l with
  | nil => rfl
  | cons c rest ih =>
    have hfix : goToLowerChar c = c := by
      rw [goToLowerChar, if_neg (h c (by simp))]
    simp only [List.map_cons, hfix, List.cons.injEq, true_and]
    exact ih fun x hx => h x (by simp [hx])

theorem goToLower_of_lowerOnly {s : String} (h : lowerOnly s = true) :
    goToLower s = s := by
  cases s with
  | mk data =>
    simp only [lowerOnly, List.all_eq_true, Bool.not_eq_true', Bool.and_eq_false_iff,
      decide_eq_false_iff_not] at h
    exact congrArg String.mk (map_goToLowerChar_eq_self fun c hc => by
      have := h c hc
      tauto)

theorem goInt_eq_self {x : Int} (h : inGoRange x) : goInt x = x := by
  obtain ⟨h1, h2⟩ := h
  rw [minGoInt] at h1
  rw [maxGoInt] at h2
  have e63 : (2 : Int) ^ 63 = 9223372036854775808 := by norm_num
  have e64 : (2 : Int) ^ 64 = 18446744073709551616 := by norm_num
  rw [goInt, e63, e64]
  rw [e63] at h1 h2
  omega

theorem goInt_inRange (x : Int) : inGoRange (goInt x) := by
  have e63 : (2 : Int) ^ 63 = 9223372036854775808 := by norm_num
  have e64 : (2 : Int) ^ 64 = 18446744073709551616 := by norm_num
  constructor
  · rw [minGoInt, goInt, e63, e64]
    omega
  · rw [maxGoInt, goInt, e63, e64]
    omega

theorem goAtoi_fst_inRange (s : String) : inGoRange (goAtoi s).1 := by
  have hmax : inGoRange maxGoInt := by
    constructor
    · rw [minGoInt, maxGoInt]; norm_num
    · exact le_refl _
  have hmin : inGoRange minGoInt := by
    constructor
    · exact le_refl _
    · rw [minGoInt, maxGoInt]; norm_num
  have hzero : inGoRange 0 := by
    constructor
    · rw [minGoInt]; norm_num
    · rw [maxGoInt]; norm_num
  rw [goAtoi]
  by_cases hsyn : goAtoiSyntaxOk s
  · rw [if_pos hsyn]
    rcases signSplit s.data with ⟨neg, digs⟩
    simp only
    split_ifs <;>
      first
      | exact hmax
      | exact hmin
      | exact ⟨not_lt.mp (by assumption), not_lt.mp (by assumption)⟩
  · rw [if_neg hsyn]
    exact hzero

theorem transferPoints_taxed
    (st : ChainState) (s r t : String) (rest : List String)
    (ps pr pt : participant) (a : Int)
    (hs : getState st s = some ps) (hr : getState st r = some pr)
    (ht : getState st "TaxAuth" = some pt)
    (hsc : ps.Category ≠ "TaxAuth") (hrc : pr.Category ≠ "TaxAuth")
    (hre : pr.Category ≠ "TaxExempt")
    (ha : (goAtoi t).1 = a)
    (hbal : ¬ ps.Balance < a) :
    transferPoints st (s :: r :: t :: rest) =
      (Response.success none,
        putState (putState (putState st "TaxAuth"
            { pt with Balance := goInt (pt.Balance + Int.tdiv (goInt (a * 2)) 100) })
          s { ps with Balance := goInt (ps.Balance - a) })
        r { pr with
            Balance := goInt (pr.Balance + goInt (a - Int.tdiv (goInt (a * 2)) 100)) }) := by
  simp only [transferPoints, ha, hs, hr, ht, jsonUnmarshal]
  simp [hsc, hrc, hre, hbal]

theorem transferPoints_exempt
    (st : ChainState) (s r t : String) (rest : List String)
    (ps pr pt : participant) (a : Int)
    (hs : getState st s = some ps) (hr : getState st r = some pr)
    (ht : getState st "TaxAuth" = some pt)
    (hsc : ps.Category ≠ "TaxAuth")
    (hre : pr.Category = "TaxExempt")
    (ha : (goAtoi t).1 = a)
    (hbal : ¬ ps.Balance < a) :
    transferPoints st (s :: r :: t :: rest) =
      (Response.success none,
        putState (putState st s { ps with Balance := goInt (ps.Balance - a) })
          r { pr with Balance := goInt (pr.Balance + a) }) := by
  have hrc : pr.Category ≠ "TaxAuth" := by rw [hre]; decide
  simp only [transferPoints, ha, hs, hr, ht, jsonUnmarshal]
  simp [hsc, hrc, hre, hbal]

theorem transferPoints_insufficient
    (st : ChainState) (s r t : String) (rest : List String)
    (ps pr pt : participant) (a : Int)
    (hs : getState st s = some ps) (hr : getState st r = some pr)
    (ht : getState st "TaxAuth" = some pt)
    (hsc : ps.Category ≠ "TaxAuth") (hrc : pr.Category ≠ "TaxAuth")
    (ha : (goAtoi t).1 = a)
    (hbal : ps.Balance < a) :
    transferPoints st (s :: r :: t :: rest) =
      (Response.error "There is no enough balance in the sender account", st) := by
  simp only [transferPoints, ha, hs, hr, ht, jsonUnmarshal]
  simp [hsc, hrc, hbal]

theorem transferPoints_sender_missing
    (st : ChainState) (s r t : String) (rest : List String)
    (hs : getState st s = none) :
    transferPoints st (s :: r :: t :: rest) = (.error "Sender does not exist", st) := by
  simp [transferPoints, hs]

theorem transferPoints_taxauth_missing
    (st : ChainState) (s r t : String) (rest : List String) (ps : participant)
    (hs : getState st s = some ps) (ht : getState st "TaxAuth" = none) :
    transferPoints st (s :: r :: t :: rest) =
      (.error "unexpected end of JSON input", st) := by
  simp [transferPoints, hs, ht, jsonUnmarshal]

theorem transferPoints_receiver_missing
    (st : ChainState) (s r t : String) (rest : List String) (ps pt : participant)
    (hs : getState st s = some ps) (ht : getState st "TaxAuth" = some pt)
    (hr : getState st r = none) :
    transferPoints st (s :: r :: t :: rest) =
      (.error "unexpected end of JSON input", st) := by
  simp [transferPoints, hs, ht, hr, jsonUnmarshal]

theorem catInv_putState {st : ChainState} {key : String} {v : participant}
    (h : catInv st) (hv : lowerOnly v.Category = true) : catInv (putState st key v) := by
  intro k p hk
  simp only [putState] at hk
  by_cases hkk : k = key
  · subst hkk
    rw [getLedger_putL_self] at hk
    obtain rfl : v = p := by injection hk
    exact hv
  · rw [getLedger_putL_ne st.ledger v hkk] at hk
    exact h k p hk

theorem catInv_initialState : catInv initialState := by
  intro k p hk
  simp [initialState, getLedger] at hk

theorem catInv_initParty {st : ChainState} (h : catInv st) (args : List String) :
    catInv (initParty st args).2 := by
  rcases args with _ | ⟨a0, _ | ⟨a1, _ | ⟨a2, _ | ⟨a3, rest⟩⟩⟩⟩
  · simpa [initParty] using h
  · simpa [initParty] using h
  · simpa [initParty] using h
  · by_cases h0 : a0.length = 0
    · simpa [initParty, h0] using h
    by_cases h1 : a1.length = 0
    · simpa [initParty, h0, h1] using h
    by_cases h2 : a2.length = 0
    · simpa [initParty, h0, h1, h2] using h
    rcases hA : goAtoi a2 with ⟨b, ok⟩
    cases ok
    · simpa [initParty, h0, h1, h2, hA] using h
    · cases hG : getState st a0 with
      | some q => simpa [initParty, h0, h1, h2, hA, hG] using h
      | none =>
        have hst : (initParty st [a0, a1, a2]).2 =
            putState st a0 ⟨"participant", a0, goToLower a1, b⟩ := by
          simp [initParty, h0, h1, h2, hA, hG]
        rw [hst]
        exact catInv_putState h (lowerOnly_goToLower a1)
  · simpa [initParty] using h

theorem catInv_transferPoints {st : ChainState} (h : catInv st) (args : List String) :
    catInv (transferPoints st args).2 := by
  rcases args with _ | ⟨s, _ | ⟨r, _ | ⟨t, rest⟩⟩⟩
  · simpa [transferPoints] using h
  · simpa [transferPoints] using h
  · simpa [transferPoints] using h
  · cases hS : getState st s with
    | none => rw [transferPoints_sender_missing st s r t rest hS]; exact h
    | some ps =>
      cases hT : getState st "TaxAuth" with
      | none => rw [transferPoints_taxauth_missing st s r t rest ps hS hT]; exact h
      | some pt =>
        cases hR : getState st r with
        | none => rw [transferPoints_receiver_missing st s r t rest ps pt hS hT hR]; exact h
        | some pr =>
          have hps := ne_marker_of_lowerOnly (h s ps hS)
          have hpr := ne_marker_of_lowerOnly (h r pr hR)
          by_cases hbal : ps.Balance < (goAtoi t).1
          · rw [transferPoints_insufficient st s r t rest ps pr pt _ hS hR hT
              hps.1 hpr.1 rfl hbal]
            exact h
          · rw [transferPoints_taxed st s r t rest ps pr pt _ hS hR hT
              hps.1 hpr.1 hpr.2 rfl hbal]
            exact catInv_putState (catInv_putState (catInv_putState h
              (h "TaxAuth" pt hT)) (h s ps hS)) (h r pr hR)

theorem transferPoints_sender_reject
    (st : ChainState) (s r t : String) (rest : List String) (ps pr pt : participant)
    (hs : getState st s = some ps) (hr : getState st r = some pr)
    (ht : getState st "TaxAuth" = some pt)
    (hcs : ps.Category = "TaxAuth") :
    transferPoints st (s :: r :: t :: rest) = (.error taxRejectMsg, st) := by
  simp [transferPoints, hs, hr, ht, jsonUnmarshal, hcs]

theorem transferPoints_receiver_reject
    (st : ChainState) (s r t : String) (rest : List String) (ps pr pt : participant)
    (hs : getState st s = some ps) (hr : getState st r = some pr)
    (ht : getState st "TaxAuth" = some pt)
    (hcs : ps.Category ≠ "TaxAuth") (hcr : pr.Category = "TaxAuth") :
    transferPoints st (s :: r :: t :: rest) = (.error taxRejectMsg, st) := by
  simp [transferPoints, hs, hr, ht, jsonUnmarshal, hcs, hcr]

theorem balInv_putState {st : ChainState} {key : String} {v : participant}
    (h : balInv st) (hv : inGoRange v.Balance) : balInv (putState st key v) := by
  intro k p hk
  simp only [putState] at hk
  by_cases hkk : k = key
  · subst hkk
    rw [getLedger_putL_self] at hk
    obtain rfl : v = p := by injection hk
    exact hv
  · rw [getLedger_putL_ne st.ledger v hkk] at hk
    exact h k p hk

theorem balInv_initialState : balInv initialState := by
  intro k p hk
  simp [initialState, getLedger] at hk

theorem balInv_initParty {st : ChainState} (h : balInv st) (args : List String) :
    balInv (initParty st args).2 := by
  rcases args with _ | ⟨a0, _ | ⟨a1, _ | ⟨a2, _ | ⟨a3, rest⟩⟩⟩⟩
  · simpa [initParty] using h
  · simpa [initParty] using h
  · simpa [initParty] using h
  · by_cases h0 : a0.length = 0
    · simpa [initParty, h0] using h
    by_cases h1 : a1.length = 0
    · simpa [initParty, h0, h1] using h
    by_cases h2 : a2.length = 0
    · simpa [initParty, h0, h1, h2] using h
    rcases hA : goAtoi a2 with ⟨b, ok⟩
    have hb : inGoRange b := by
      have hfst := goAtoi_fst_inRange a2
      rw [hA] at hfst
      exact hfst
    cases ok
    · simpa [initParty, h0, h1, h2, hA] using h
    · cases hG : getState st a0 with
      | some q => simpa [initParty, h0, h1, h2, hA, hG] using h
      | none =>
        have hst : (initParty st [a0, a1, a2]).2 =
            putState st a0 ⟨"participant", a0, goToLower a1, b⟩ := by
          simp [initParty, h0, h1, h2, hA, hG]
        rw [hst]
        exact balInv_putState h hb
  · simpa [initParty] using h

theorem balInv_transferPoints {st : ChainState} (h : balInv st) (args : List String) :
    balInv (transferPoints st args).2 := by
  rcases args with _ | ⟨s, _ | ⟨r, _ | ⟨t, rest⟩⟩⟩
  · simpa [transferPoints] using h
  · simpa [transferPoints] using h
  · simpa [transferPoints] using h
  · cases hS : getState st s with
    | none => rw [transferPoints_sender_missing st s r t rest hS]; exact h
    | some ps =>
      cases hT : getState st "TaxAuth" with
      | none => rw [transferPoints_taxauth_missing st s r t rest ps hS hT]; exact h
      | some pt =>
        cases hR : getState st r with
        | none => rw [transferPoints_receiver_missing st s r t rest ps pt hS hT hR]; exact h
        | some pr =>
          by_cases hcs : ps.Category = "TaxAuth"
          · rw [transferPoints_sender_reject st s r t rest ps pr pt hS hR hT hcs]
            exact h
          by_cases hcr : pr.Category = "TaxAuth"
          · rw [transferPoints_receiver_reject st s r t rest ps pr pt hS hR hT hcs hcr]
            exact h
          by_cases hbal : ps.Balance < (goAtoi t).1
          · rw [transferPoints_insufficient st s r t rest ps pr pt _ hS hR hT
              hcs hcr rfl hbal]
            exact h
          by_cases hre : pr.Category = "TaxExempt"
          · rw [transferPoints_exempt st s r t rest ps pr pt _ hS hR hT hcs hre rfl hbal]
            exact balInv_putState (balInv_putState h (goInt_inRange _)) (goInt_inRange _)
          · rw [transferPoints_taxed st s r t rest ps pr pt _ hS hR hT
              hcs hcr hre rfl hbal]
            exact balInv_putState (balInv_putState (balInv_putState h
              (goInt_inRange _)) (goInt_inRange _)) (goInt_inRange _)

/-- Every state reachable from the empty store has only 64-bit
representable balances: the model's `Int` balances never leave the range
the Go `int` field can hold. -/
theorem reachable_balances_inRange {st : ChainState} (h : Reachable st) : balInv st := by
  induction h with
  | empty => exact balInv_initialState
  | stepInit st args _ ih => exact balInv_initParty ih args
  | stepTransfer st args _ ih => exact balInv_transferPoints ih args

theorem reachable_catInv {st : ChainState} (h : Reachable st) : catInv st := by
  induction h with
  | empty => exact catInv_initialState
  | stepInit st args _ ih => exact catInv_initParty ih args
  | stepTransfer st args _ ih => exact catInv_transferPoints ih args

theorem transferPoints_no_reject {st : ChainState} (h : catInv st) (args : List String) :
    (transferPoints st args).1 ≠ Response.error taxRejectMsg := by
  rcases args with _ | ⟨s, _ | ⟨r, _ | ⟨t, rest⟩⟩⟩
  · simp [transferPoints, taxRejectMsg]
  · simp [transferPoints, taxRejectMsg]
  · simp [transferPoints, taxRejectMsg]
  · cases hS : getState st s with
    | none =>
      rw [transferPoints_sender_missing st s r t rest hS]
      simp [taxRejectMsg]
    | some ps =>
      cases hT : getState st "TaxAuth" with
      | none =>
        rw [transferPoints_taxauth_missing st s r t rest ps hS hT]
        simp [taxRejectMsg]
      | some pt =>
        cases hR : getState st r with
        | none =>
          rw [transferPoints_receiver_missing st s r t rest ps pt hS hT hR]
          simp [taxRejectMsg]
        | some pr =>
          have hps := ne_marker_of_lowerOnly (h s ps hS)
          have hpr := ne_marker_of_lowerOnly (h r pr hR)
          by_cases hbal : ps.Balance < (goAtoi t).1
          · rw [transferPoints_insufficient st s r t rest ps pr pt _ hS hR hT
              hps.1 hpr.1 rfl hbal]
            simp [taxRejectMsg]
          · rw [transferPoints_taxed st s r t rest ps pr pt _ hS hR hT
              hps.1 hpr.1 hpr.2 rfl hbal]
            simp

theorem transferPoints_success_writes {st : ChainState} (h : catInv st)
    (args : List String) (hsucc : (transferPoints st args).1 = Response.success none) :
    (transferPoints st args).2.writes.length = st.writes.length + 3 := by
  rcases args with _ | ⟨s, _ | ⟨r, _ | ⟨t, rest⟩⟩⟩
  · simp [transferPoints] at hsucc
  · simp [transferPoints] at hsucc
  · simp [transferPoints] at hsucc
  · cases hS : getState st s with
    | none => rw [transferPoints_sender_missing st s r t rest hS] at hsucc; simp at hsucc
    | some ps =>
      cases hT : getState st "TaxAuth" with
      | none =>
        rw [transferPoints_taxauth_missing st s r t rest ps hS hT] at hsucc
        simp at hsucc
      | some pt =>
        cases hR : getState st r with
        | none =>
          rw [transferPoints_receiver_missing st s r t rest ps pt hS hT hR] at hsucc
          simp at hsucc
        | some pr =>
          have hps := ne_marker_of_lowerOnly (h s ps hS)
          have hpr := ne_marker_of_lowerOnly (h r pr hR)
          by_cases hbal : ps.Balance < (goAtoi t).1
          · rw [transferPoints_insufficient st s r t rest ps pr pt _ hS hR hT
              hps.1 hpr.1 rfl hbal] at hsucc
            simp at hsucc
          · rw [transferPoints_taxed st s r t rest ps pr pt _ hS hR hT
              hps.1 hpr.1 hpr.2 rfl hbal]
            simp [putState]

/-- C1 counterexample, two instances. First, at the parsed amount -51
(all of the claim's side conditions hold: distinct existing sender and
receiver, no stored category equals a marker, receiver not tax-exempt)
the receiver's stored balance changes by
`amount - Int.tdiv (amount * 2) 100 = -50`, which is not
`amount - floor (amount * 2 / 100) = -49`, so `tax = floor(amount*2/100)`
is false of the code. Second, at the parsed amount 5·10^18 (representable
as a Go `int`, sender balance sufficient) the Go product
`pointsAsInt * 2` wraps at 64 bits to a negative value, the tax is
-84467440737095516, and the tax authority's stored balance DECREASES,
refuting "the tax authority's stored balance increases by tax =
floor(amount*2/100)" at an in-range input. -/
theorem C1_floor_division_counterexample :
    (goAtoi "-51" = (-51, true) ∧
      wAlice.Category ≠ "TaxAuth" ∧ wBob.Category ≠ "TaxAuth" ∧
      wBob.Category ≠ "TaxExempt" ∧ ¬ wAlice.Balance < -51 ∧
      (transferPoints wBase ["Alice", "Bob", "-51"]).1 = Response.success none ∧
      balAt (transferPoints wBase ["Alice", "Bob", "-51"]).2.ledger "Bob"
        = wBob.Balance + (-51 - Int.tdiv (-51 * 2) 100) ∧
      balAt (transferPoints wBase ["Alice", "Bob", "-51"]).2.ledger "Bob"
        ≠ wBob.Balance + (-51 - Int.fdiv (-51 * 2) 100)) ∧
    (goAtoi "5000000000000000000" = (5000000000000000000, true) ∧
      goInt (5000000000000000000 * 2) = -8446744073709551616 ∧
      (transferPoints wRich ["Alice", "Bob", "5000000000000000000"]).1
        = Response.success none ∧
      balAt (transferPoints wRich
          ["Alice", "Bob", "5000000000000000000"]).2.ledger "TaxAuth"
        = -84467440737095516 ∧
      balAt (transferPoints wRich
          ["Alice", "Bob", "5000000000000000000"]).2.ledger "TaxAuth"
        < balAt wRich.ledger "TaxAuth") := by
  decide

/-- C1 (amended): for every successful `transferPoints` on three distinct
keys in which the amount text parses to the integer `a`, sender, receiver
and tax authority exist, no stored category triggers the tax-authority
rejection, the receiver's stored category is not the tax-exempt marker,
and no intermediate of the Go `int` (64-bit, wrapping) arithmetic
overflows — `a * 2`, `a - tax`, and the three updated balances all lie in
the signed 64-bit range: with `tax = Int.tdiv (a * 2) 100` (Go's
truncation-toward-zero division, which agrees with floor division for
nonnegative amounts), the sender's stored balance decreases by `a`, the
receiver's increases by `a - tax`, the tax authority's increases by
`tax`, and the sum of the three stored balances is unchanged. Outside
these ranges the program wraps modulo `2^64` (see the counterexample's
5·10^18 trace). -/
theorem C1_taxed_transfer_conservation
    (st : ChainState) (s r t : String) (rest : List String)
    (ps pr pt : participant) (a : Int)
    (hsr : s ≠ r) (hsT : s ≠ "TaxAuth") (hrT : r ≠ "TaxAuth")
    (hs : getState st s = some ps) (hr : getState st r = some pr)
    (ht : getState st "TaxAuth" = some pt)
    (hsc : ps.Category ≠ "TaxAuth") (hrc : pr.Category ≠ "TaxAuth")
    (hre : pr.Category ≠ "TaxExempt")
    (ha : goAtoi t = (a, true)) (hbal : ¬ ps.Balance < a)
    (hw1 : inGoRange (a * 2))
    (hw2 : inGoRange (a - Int.tdiv (a * 2) 100))
    (hw3 : inGoRange (ps.Balance - a))
    (hw4 : inGoRange (pr.Balance + (a - Int.tdiv (a * 2) 100)))
    (hw5 : inGoRange (pt.Balance + Int.tdiv (a * 2) 100)) :
    (transferPoints st (s :: r :: t :: rest)).1 = Response.success none ∧
    balAt (transferPoints st (s :: r :: t :: rest)).2.ledger s = ps.Balance - a ∧
    balAt (transferPoints st (s :: r :: t :: rest)).2.ledger r
      = pr.Balance + (a - Int.tdiv (a * 2) 100) ∧
    balAt (transferPoints st (s :: r :: t :: rest)).2.ledger "TaxAuth"
      = pt.Balance + Int.tdiv (a * 2) 100 ∧
    balAt (transferPoints st (s :: r :: t :: rest)).2.ledger s
        + balAt (transferPoints st (s :: r :: t :: rest)).2.ledger r
        + balAt (transferPoints st (s :: r :: t :: rest)).2.ledger "TaxAuth"
      = balAt st.ledger s + balAt st.ledger r + balAt st.ledger "TaxAuth" := by
  have ha1 : (goAtoi t).1 = a := by rw [ha]
  have hTs : ("TaxAuth" : String) ≠ s := Ne.symm hsT
  have hTr : ("TaxAuth" : String) ≠ r := Ne.symm hrT
  have hs' : getLedger st.ledger s = some ps := hs
  have hr' : getLedger st.ledger r = some pr := hr
  have ht' : getLedger st.ledger "TaxAuth" = some pt := ht
  rw [transferPoints_taxed st s r t rest ps pr pt a hs hr ht hsc hrc hre ha1 hbal]
  simp only [goInt_eq_self hw1, goInt_eq_self hw2, goInt_eq_self hw3,
    goInt_eq_self hw4, goInt_eq_self hw5, putState]
  refine ⟨trivial, ?_, ?_, ?_, ?_⟩
  · rw [balAt_putL_ne _ _ hsr, balAt_putL_self]
  · rw [balAt_putL_self]
  · rw [balAt_putL_ne _ _ hTr, balAt_putL_ne _ _ hTs, balAt_putL_self]
  · rw [balAt_putL_self, balAt_putL_ne _ _ hsr, balAt_putL_self,
      balAt_putL_ne _ _ hTr, balAt_putL_ne _ _ hTs, balAt_putL_self]
    simp only [balAt, hs', hr', ht']
    ring

/-- C1 amended-claim witness: the Alice → Bob transfer of 100 from the
spec's concrete scenario (tax 2, Bob +98, TaxAuth +2, Alice -100). -/
theorem C1_taxed_transfer_conservation_witness :
    (transferPoints wBase ["Alice", "Bob", "100"]).1 = Response.success none ∧
    balAt (transferPoints wBase ["Alice", "Bob", "100"]).2.ledger "Alice"
      = wAlice.Balance - 100 ∧
    balAt (transferPoints wBase ["Alice", "Bob", "100"]).2.ledger "Bob"
      = wBob.Balance + (100 - Int.tdiv (100 * 2) 100) ∧
    balAt (transferPoints wBase ["Alice", "Bob", "100"]).2.ledger "TaxAuth"
      = wTax.Balance + Int.tdiv (100 * 2) 100 ∧
    balAt (transferPoints wBase ["Alice", "Bob", "100"]).2.ledger "Alice"
        + balAt (transferPoints wBase ["Alice", "Bob", "100"]).2.ledger "Bob"
        + balAt (transferPoints wBase ["Alice", "Bob", "100"]).2.ledger "TaxAuth"
      = balAt wBase.ledger "Alice" + balAt wBase.ledger "Bob"
        + balAt wBase.ledger "TaxAuth" :=
  C1_taxed_transfer_conservation wBase "Alice" "Bob" "100" [] wAlice wBob wTax 100
    (by decide) (by decide) (by decide) (by decide) (by decide) (by decide)
    (by decide) (by decide) (by decide) (by decide) (by decide) (by decide)
    (by decide) (by decide) (by decide) (by decide)

/-- C2 counterexample: creating Carol with category "TaxExempt" via
`initParty` stores the lowercase "taxexempt", so the case-sensitive
`"TaxExempt"` comparison of `transferPoints` does not match: the spec's
own scenario (create Carol tax-exempt, transfer 100 from Alice) ends with
Carol at 98 — not 100 — the tax authority credited 2 — not unchanged —
and the tax-authority record rewritten (three writes, not two). -/
theorem C2_exempt_creation_counterexample :
    (initParty initialState ["Alice", "Normal", "500"]).1 = Response.success none ∧
    (initParty (initParty initialState ["Alice", "Normal", "500"]).2
      ["TaxAuth", "TaxAuth", "0"]).1 = Response.success none ∧
    (initParty (initParty (initParty initialState ["Alice", "Normal", "500"]).2
      ["TaxAuth", "TaxAuth", "0"]).2 ["Carol", "TaxExempt", "0"]).1
        = Response.success none ∧
    (transferPoints (initParty (initParty (initParty initialState
        ["Alice", "Normal", "500"]).2 ["TaxAuth", "TaxAuth", "0"]).2
        ["Carol", "TaxExempt", "0"]).2 ["Alice", "Carol", "100"]).1
      = Response.success none ∧
    balAt (transferPoints (initParty (initParty (initParty initialState
        ["Alice", "Normal", "500"]).2 ["TaxAuth", "TaxAuth", "0"]).2
        ["Carol", "TaxExempt", "0"]).2 ["Alice", "Carol", "100"]).2.ledger "Carol"
      = 98 ∧ (98 : Int) ≠ 100 ∧
    balAt (transferPoints (initParty (initParty (initParty initialState
        ["Alice", "Normal", "500"]).2 ["TaxAuth", "TaxAuth", "0"]).2
        ["Carol", "TaxExempt", "0"]).2 ["Alice", "Carol", "100"]).2.ledger "TaxAuth"
      = 2 ∧ (2 : Int) ≠ 0 ∧
    (transferPoints (initParty (initParty (initParty initialState
        ["Alice", "Normal", "500"]).2 ["TaxAuth", "TaxAuth", "0"]).2
        ["Carol", "TaxExempt", "0"]).2 ["Alice", "Carol", "100"]).2.writes.length
      = (initParty (initParty (initParty initialState
        ["Alice", "Normal", "500"]).2 ["TaxAuth", "TaxAuth", "0"]).2
        ["Carol", "TaxExempt", "0"]).2.writes.length + 3 := by
  decide

/-- C2 (amended): the tax-exempt branch is governed by the receiver's
STORED category being the literal marker `"TaxExempt"` — a value
`initParty` never stores, since it lowercases the supplied category. For
every transfer to a receiver whose stored category is literally
`"TaxExempt"` (sender existing, not category-restricted, with enough
balance; all three keys distinct; the debited and credited balances within
the Go `int` 64-bit range, outside of which Go wraps): the receiver's
stored balance increases by exactly the full amount, the tax authority's
stored record is unchanged and not rewritten (the invocation writes only
the sender and receiver keys). A receiver created through `initParty` with
category "TaxExempt" instead takes the taxed branch (see the
counterexample). -/
theorem C2_exempt_marker_transfer
    (st : ChainState) (s r t : String) (rest : List String)
    (ps pr pt : participant) (a : Int)
    (hsr : s ≠ r) (hsT : s ≠ "TaxAuth") (hrT : r ≠ "TaxAuth")
    (hs : getState st s = some ps) (hr : getState st r = some pr)
    (ht : getState st "TaxAuth" = some pt)
    (hsc : ps.Category ≠ "TaxAuth")
    (hre : pr.Category = "TaxExempt")
    (ha : goAtoi t = (a, true)) (hbal : ¬ ps.Balance < a)
    (hws : inGoRange (ps.Balance - a))
    (hwr : inGoRange (pr.Balance + a)) :
    (transferPoints st (s :: r :: t :: rest)).1 = Response.success none ∧
    balAt (transferPoints st (s :: r :: t :: rest)).2.ledger r = pr.Balance + a ∧
    getState (transferPoints st (s :: r :: t :: rest)).2 "TaxAuth" = some pt ∧
    (transferPoints st (s :: r :: t :: rest)).2.writes
      = st.writes ++ [(s, { ps with Balance := ps.Balance - a }),
          (r, { pr with Balance := pr.Balance + a })] ∧
    "TaxAuth" ∉ ((transferPoints st (s :: r :: t :: rest)).2.writes.drop
      st.writes.length).map Prod.fst := by
  have ha1 : (goAtoi t).1 = a := by rw [ha]
  have hTs : ("TaxAuth" : String) ≠ s := Ne.symm hsT
  have hTr : ("TaxAuth" : String) ≠ r := Ne.symm hrT
  rw [transferPoints_exempt st s r t rest ps pr pt a hs hr ht hsc hre ha1 hbal]
  simp only [goInt_eq_self hws, goInt_eq_self hwr, putState]
  refine ⟨trivial, ?_, ?_, ?_, ?_⟩
  · rw [balAt_putL_self]
  · show getLedger (putL (putL st.ledger s _) r _) "TaxAuth" = some pt
    rw [getLedger_putL_ne _ _ hTr, getLedger_putL_ne _ _ hTs]
    exact ht
  · simp
  · simp only [List.append_assoc, List.singleton_append, List.drop_left,
      List.map_cons, List.map_nil, List.mem_cons]
    rintro (h1 | h1 | h1)
    · exact hsT h1.symm
    · exact hrT h1.symm
    · simp at h1

/-- C2 amended-claim witness: with Carol's stored category literally
"TaxExempt", the Alice → Carol transfer of 100 credits Carol the full 100
and does not rewrite the tax-authority record. -/
theorem C2_exempt_marker_transfer_witness :
    (transferPoints wExempt ["Alice", "Carol", "100"]).1 = Response.success none ∧
    balAt (transferPoints wExempt ["Alice", "Carol", "100"]).2.ledger "Carol"
      = wCarolX.Balance + 100 ∧
    getState (transferPoints wExempt ["Alice", "Carol", "100"]).2 "TaxAuth"
      = some wTax ∧
    (transferPoints wExempt ["Alice", "Carol", "100"]).2.writes
      = wExempt.writes ++ [("Alice", { wAlice with Balance := wAlice.Balance - 100 }),
          ("Carol", { wCarolX with Balance := wCarolX.Balance + 100 })] ∧
    "TaxAuth" ∉ ((transferPoints wExempt ["Alice", "Carol", "100"]).2.writes.drop
      wExempt.writes.length).map Prod.fst :=
  C2_exempt_marker_transfer wExempt "Alice" "Carol" "100" [] wAlice wCarolX wTax 100
    (by decide) (by decide) (by decide) (by decide) (by decide) (by decide)
    (by decide) (by decide) (by decide) (by decide) (by decide) (by decide)

/-- C3: the Go source's receiver and tax-authority existence checks test
`senderAsBytes` (copy-paste slip at lines 182 and 190 of `testcc.go`), so
with an existing sender and a missing receiver the call reaches
`json.Unmarshal` on a nil slice and fails with the decode error — not the
"Receiver does not exist" NotFound failure the claim (and the source's own
error string) intends; likewise for a missing tax-authority record. No
stored balances change in either case. -/
theorem C3_missing_record_wrong_error :
    ((transferPoints wNoBob ["Alice", "MissingUser", "10"]).1
        = Response.error "unexpected end of JSON input" ∧
      (transferPoints wNoBob ["Alice", "MissingUser", "10"]).1
        ≠ Response.error "Receiver does not exist" ∧
      (transferPoints wNoBob ["Alice", "MissingUser", "10"]).2 = wNoBob) ∧
    ((transferPoints wNoTax ["Alice", "Bob", "10"]).1
        = Response.error "unexpected end of JSON input" ∧
      (transferPoints wNoTax ["Alice", "Bob", "10"]).1
        ≠ Response.error "Tax Authority does not exist" ∧
      (transferPoints wNoTax ["Alice", "Bob", "10"]).2 = wNoTax) := by
  decide

/-- C4: in every state reachable from the empty store via `initParty` and
`transferPoints`, every stored category is in the image of the lowercase
normalisation (hence never equals the mixed-case markers "TaxAuth" or
"TaxExempt"); consequently the tax-authority rejection of `transferPoints`
is unreachable, and every successful transfer takes the taxed branch,
writing exactly three records (tax authority, sender, receiver) — the
tax-exempt branch, which would write only two, is unreachable. -/
theorem C4_lowercase_invariant_markers_unreachable
    (st : ChainState) (h : Reachable st) :
    (∀ k p, getLedger st.ledger k = some p →
      ∃ c, p.Category = goToLower c ∧
        p.Category ≠ "TaxAuth" ∧ p.Category ≠ "TaxExempt") ∧
    (∀ args, (transferPoints st args).1 ≠ Response.error taxRejectMsg) ∧
    (∀ args, (transferPoints st args).1 = Response.success none →
      (transferPoints st args).2.writes.length = st.writes.length + 3) := by
  have hc := reachable_catInv h
  refine ⟨?_, transferPoints_no_reject hc, transferPoints_success_writes hc⟩
  intro k p hk
  have hl := hc k p hk
  exact ⟨p.Category, (goToLower_of_lowerOnly hl).symm, ne_marker_of_lowerOnly hl⟩

/-- C4 witness: in the reachable state holding only Alice, the transfer
rejection message cannot be produced. -/
theorem C4_lowercase_invariant_markers_unreachable_witness :
    (transferPoints wReach ["Alice", "Bob", "10"]).1 ≠ Response.error taxRejectMsg :=
  (C4_lowercase_invariant_markers_unreachable wReach
    (Reachable.stepInit initialState ["Alice", "Normal", "500"]
      Reachable.empty)).2.1 ["Alice", "Bob", "10"]

/-- C5: a `transferPoints` call that reaches the balance check (sender,
receiver and tax authority present and decodable, neither category equal
to "TaxAuth") with parsed amount strictly greater than the sender's stored
balance returns the insufficient-balance failure and leaves the state —
ledger and write log — exactly unchanged. -/
theorem C5_insufficient_balance_unchanged
    (st : ChainState) (s r t : String) (rest : List String)
    (ps pr pt : participant) (a : Int)
    (hs : getState st s = some ps) (hr : getState st r = some pr)
    (ht : getState st "TaxAuth" = some pt)
    (hsc : ps.Category ≠ "TaxAuth") (hrc : pr.Category ≠ "TaxAuth")
    (ha : goAtoi t = (a, true)) (hbal : ps.Balance < a) :
    transferPoints st (s :: r :: t :: rest)
      = (Response.error "There is no enough balance in the sender account", st) :=
  transferPoints_insufficient st s r t rest ps pr pt a hs hr ht hsc hrc
    (by rw [ha]) hbal

/-- C5 witness: the spec's scenario — transferring 10000 from Alice, whose
balance is 500, fails with the insufficient-balance error and leaves the
state untouched. -/
theorem C5_insufficient_balance_unchanged_witness :
    transferPoints wBase ["Alice", "Bob", "10000"]
      = (Response.error "There is no enough balance in the sender account", wBase) :=
  C5_insufficient_balance_unchanged wBase "Alice" "Bob" "10000" [] wAlice wBob wTax
    10000 (by decide) (by decide) (by decide) (by decide) (by decide) (by decide)
    (by decide)

/-- C6: when the target key already holds a record, `initParty` (with
well-formed arguments: three non-empty strings whose third parses as an
integer) fails with the already-exists error and returns the state — ledger
and write log — exactly unchanged, so the stored record is untouched. -/
theorem C6_already_exists_no_write
    (st : ChainState) (a0 a1 a2 : String) (p : participant)
    (h0 : a0.length ≠ 0) (h1 : a1.length ≠ 0) (h2 : a2.length ≠ 0)
    (hok : (goAtoi a2).2 = true)
    (hex : getState st a0 = some p) :
    initParty st [a0, a1, a2]
      = (Response.error ("This Participant already exists: " ++ a0), st) := by
  rcases hA : goAtoi a2 with ⟨b, ok⟩
  rw [hA] at hok
  simp only at hok
  subst hok
  simp [initParty, h0, h1, h2, hA, hex]

/-- C6 witness: re-creating Alice over the fixture state fails with the
already-exists error and leaves the state unchanged (so her stored balance
of 500 is untouched). -/
theorem C6_already_exists_no_write_witness :
    initParty wBase ["Alice", "Normal", "500"]
      = (Response.error ("This Participant already exists: " ++ "Alice"), wBase) :=
  C6_already_exists_no_write wBase "Alice" "Normal" "500" wAlice (by decide)
    (by decide) (by decide) (by decide) (by decide)

/-- C7: when the third argument of `transferPoints` is not a syntactically
valid integer string, no argument-type failure is returned: `strconv.Atoi`
returns 0 alongside the ignored error, and the call behaves exactly like
the same call with amount text "0". -/
theorem C7_unparsed_amount_is_zero
    (st : ChainState) (s r t : String) (rest : List String)
    (hsyn : goAtoiSyntaxOk t = false) :
    transferPoints st (s :: r :: t :: rest)
      = transferPoints st (s :: r :: "0" :: rest) := by
  have h1 : (goAtoi t).1 = 0 := by simp [goAtoi, hsyn]
  have h2 : (goAtoi "0").1 = 0 := by decide
  simp only [transferPoints, h1, h2]

/-- C7 witness: "abc" is not an integer string, and the transfer of "abc"
points behaves exactly like a zero-amount transfer. -/
theorem C7_unparsed_amount_is_zero_witness :
    goAtoiSyntaxOk "abc" = false ∧
    transferPoints wBase ["Alice", "Bob", "abc"]
      = transferPoints wBase ["Alice", "Bob", "0"] :=
  ⟨by decide, C7_unparsed_amount_is_zero wBase "Alice" "Bob" "abc" [] (by decide)⟩

/-- C8: round trip — after a successful `initParty` of a fresh name with
non-empty arguments whose balance text parses to `b`, `readParty` of that
name succeeds and its payload is the stored record with the given name,
the lowercased category, and balance `b`. -/
theorem C8_create_read_roundtrip
    (st : ChainState) (a0 a1 a2 : String) (b : Int)
    (h0 : a0.length ≠ 0) (h1 : a1.length ≠ 0)
    (hb : goAtoi a2 = (b, true)) (habs : getState st a0 = none) :
    (initParty st [a0, a1, a2]).1 = Response.success none ∧
    readParty (initParty st [a0, a1, a2]).2 [a0] =
      (Response.success (some ⟨"participant", a0, goToLower a1, b⟩),
        (initParty st [a0, a1, a2]).2) := by
  have h2 : a2.length ≠ 0 := by
    intro hlen
    cases a2 with
    | mk d =>
      have hd : d = [] := by
        simpa [String.length] using hlen
      subst hd
      rw [show goAtoi (String.mk []) = (0, false) from by decide] at hb
      simp at hb
  have hcall : initParty st [a0, a1, a2]
      = (Response.success none, putState st a0 ⟨"participant", a0, goToLower a1, b⟩) := by
    simp [initParty, h0, h1, h2, hb, habs]
  rw [hcall]
  refine ⟨rfl, ?_⟩
  simp [readParty, getState, putState, getLedger_putL_self]

/-- C8 witness: the spec's scenario 1 — create Alice with category
"Normal" and balance text "500", then read her back: balance 500 and
category "normal". -/
theorem C8_create_read_roundtrip_witness :
    ((initParty initialState ["Alice", "Normal", "500"]).1 = Response.success none ∧
      readParty (initParty initialState ["Alice", "Normal", "500"]).2 ["Alice"] =
        (Response.success (some ⟨"participant", "Alice", goToLower "Normal", 500⟩),
          (initParty initialState ["Alice", "Normal", "500"]).2)) ∧
    goToLower "Normal" = "normal" :=
  ⟨C8_create_read_roundtrip initialState "Alice" "Normal" "500" 500 (by decide)
    (by decide) (by decide) (by decide), by decide⟩

theorem totalBalance_three_puts {l : List (String × participant)} (kT kn : String)
    (vt vs vr : participant) (hTn : kT ≠ kn) (hnd : nodupKeys l = true) :
    totalBalance (putL (putL (putL l kT vt) kn vs) kn vr)
      = totalBalance l - balAt l kT - balAt l kn + vt.Balance + vr.Balance := by
  have h1 : nodupKeys (putL l kT vt) = true := nodupKeys_putL kT vt hnd
  have h2 : nodupKeys (putL (putL l kT vt) kn vs) = true := nodupKeys_putL kn vs h1
  rw [totalBalance_putL kn vr h2, totalBalance_putL kn vs h1,
    totalBalance_putL kT vt hnd, balAt_putL_self, balAt_putL_ne _ _ (Ne.symm hTn)]
  ring

/-- C9: a self-transfer gains points — for a participant who is both sender
and receiver of a taxed transfer (existing, with enough balance, category
matching no marker, distinct from the tax-authority key, over a ledger with
pairwise-distinct keys, with the tax computation and the two surviving
balance updates inside the Go `int` 64-bit range), the call succeeds and
the participant's final stored balance is `b + a - Int.tdiv (a * 2) 100`
(the debit write is overwritten by the later credit write to the same
key), the tax authority still gains the tax, and the total of all stored
balances increases by the transferred amount. -/
theorem C9_self_transfer_gains
    (st : ChainState) (n t : String) (rest : List String)
    (p pt : participant) (a : Int)
    (hnT : n ≠ "TaxAuth")
    (hn : getState st n = some p) (ht : getState st "TaxAuth" = some pt)
    (hc1 : p.Category ≠ "TaxAuth") (hc2 : p.Category ≠ "TaxExempt")
    (ha : goAtoi t = (a, true)) (hbal : ¬ p.Balance < a)
    (hnd : nodupKeys st.ledger = true)
    (hw1 : inGoRange (a * 2))
    (hw2 : inGoRange (a - Int.tdiv (a * 2) 100))
    (hw4 : inGoRange (p.Balance + (a - Int.tdiv (a * 2) 100)))
    (hw5 : inGoRange (pt.Balance + Int.tdiv (a * 2) 100)) :
    (transferPoints st (n :: n :: t :: rest)).1 = Response.success none ∧
    balAt (transferPoints st (n :: n :: t :: rest)).2.ledger n
      = p.Balance + (a - Int.tdiv (a * 2) 100) ∧
    balAt (transferPoints st (n :: n :: t :: rest)).2.ledger "TaxAuth"
      = pt.Balance + Int.tdiv (a * 2) 100 ∧
    totalBalance (transferPoints st (n :: n :: t :: rest)).2.ledger
      = totalBalance st.ledger + a := by
  have ha1 : (goAtoi t).1 = a := by rw [ha]
  have hTn : ("TaxAuth" : String) ≠ n := Ne.symm hnT
  have hn' : getLedger st.ledger n = some p := hn
  have ht' : getLedger st.ledger "TaxAuth" = some pt := ht
  rw [transferPoints_taxed st n n t rest p p pt a hn hn ht hc1 hc1 hc2 ha1 hbal]
  simp only [goInt_eq_self hw1, goInt_eq_self hw2, goInt_eq_self hw4,
    goInt_eq_self hw5, putState]
  refine ⟨trivial, ?_, ?_, ?_⟩
  · rw [balAt_putL_self]
  · rw [balAt_putL_ne _ _ hTn, balAt_putL_ne _ _ hTn, balAt_putL_self]
  · rw [totalBalance_three_puts "TaxAuth" n _ _ _ hTn hnd]
    simp only [balAt, hn', ht']
    ring

/-- C9 witness: Alice transferring 100 to herself ends with balance
500 + 100 - 2 = 598, the tax authority gains 2, and the total of all
stored balances rises by 100. -/
theorem C9_self_transfer_gains_witness :
    (transferPoints wBase ["Alice", "Alice", "100"]).1 = Response.success none ∧
    balAt (transferPoints wBase ["Alice", "Alice", "100"]).2.ledger "Alice"
      = wAlice.Balance + (100 - Int.tdiv (100 * 2) 100) ∧
    balAt (transferPoints wBase ["Alice", "Alice", "100"]).2.ledger "TaxAuth"
      = wTax.Balance + Int.tdiv (100 * 2) 100 ∧
    totalBalance (transferPoints wBase ["Alice", "Alice", "100"]).2.ledger
      = totalBalance wBase.ledger + 100 :=
  C9_self_transfer_gains wBase "Alice" "100" [] wAlice wTax 100 (by decide)
    (by decide) (by decide) (by decide) (by decide) (by decide) (by decide)
    (by decide) (by decide) (by decide) (by decide) (by decide)

/-- C10: no positivity check on the amount — a taxed transfer of a negative
parsed amount `a` (with distinct existing parties, `a ≤` the sender's
balance, which the `senderBalance < a` check then passes, and the product
`a * 2` and updated balances within the Go `int` 64-bit range — for
`a < -2^62` Go's product wraps) succeeds, increases the sender's stored
balance by `-a`, and changes the receiver's by `a - Int.tdiv (a * 2) 100`,
Go's truncation-toward-zero division, which differs from floor division on
negative amounts: for a = -51 the tax is -1, not the floor value -2. -/
theorem C10_negative_amount_transfer
    (st : ChainState) (s r t : String) (rest : List String)
    (ps pr pt : participant) (a : Int)
    (hsr : s ≠ r) (hsT : s ≠ "TaxAuth") (hrT : r ≠ "TaxAuth")
    (hs : getState st s = some ps) (hr : getState st r = some pr)
    (ht : getState st "TaxAuth" = some pt)
    (hsc : ps.Category ≠ "TaxAuth") (hrc : pr.Category ≠ "TaxAuth")
    (hre : pr.Category ≠ "TaxExempt")
    (ha : goAtoi t = (a, true)) (hneg : a < 0) (hbal : a ≤ ps.Balance)
    (hw1 : inGoRange (a * 2))
    (hw2 : inGoRange (a - Int.tdiv (a * 2) 100))
    (hw3 : inGoRange (ps.Balance - a))
    (hw4 : inGoRange (pr.Balance + (a - Int.tdiv (a * 2) 100))) :
    (transferPoints st (s :: r :: t :: rest)).1 = Response.success none ∧
    balAt (transferPoints st (s :: r :: t :: rest)).2.ledger s
      = ps.Balance + (-a) ∧
    balAt (transferPoints st (s :: r :: t :: rest)).2.ledger r
      = pr.Balance + (a - Int.tdiv (a * 2) 100) ∧
    Int.tdiv (-51 * 2) 100 = -1 ∧ Int.fdiv (-51 * 2) 100 = -2 := by
  have ha1 : (goAtoi t).1 = a := by rw [ha]
  have hbal' : ¬ ps.Balance < a := not_lt.mpr hbal
  rw [transferPoints_taxed st s r t rest ps pr pt a hs hr ht hsc hrc hre ha1 hbal']
  simp only [goInt_eq_self hw1, goInt_eq_self hw2, goInt_eq_self hw3,
    goInt_eq_self hw4, putState]
  refine ⟨trivial, ?_, ?_, by decide, by decide⟩
  · rw [balAt_putL_ne _ _ hsr, balAt_putL_self]
    show ps.Balance - a = ps.Balance + -a
    ring
  · rw [balAt_putL_self]

/-- C10 witness: Bob (balance 0) "sends" -51 points to Alice: Bob ends at
0 + 51 = 51 and Alice's balance changes by -51 - (-1) = -50, from 500 to
450; the tax is -1 under truncation, -2 under floor. -/
theorem C10_negative_amount_transfer_witness :
    (transferPoints wBase ["Bob", "Alice", "-51"]).1 = Response.success none ∧
    balAt (transferPoints wBase ["Bob", "Alice", "-51"]).2.ledger "Bob"
      = wBob.Balance + (-(-51)) ∧
    balAt (transferPoints wBase ["Bob", "Alice", "-51"]).2.ledger "Alice"
      = wAlice.Balance + (-51 - Int.tdiv (-51 * 2) 100) ∧
    Int.tdiv (-51 * 2) 100 = -1 ∧ Int.fdiv (-51 * 2) 100 = -2 :=
  C10_negative_amount_transfer wBase "Bob" "Alice" "-51" [] wBob wAlice wTax (-51)
    (by decide) (by decide) (by decide) (by decide) (by decide) (by decide)
    (by decide) (by decide) (by decide) (by decide) (by decide) (by decide)
    (by decide) (by decide) (by decide) (by decide)
